import Mathlib

/-!
# Verification of the EPP client transport (`src/epp.py`)

A shallow embedding of the two transport classes in `epp.py` —
`TCPTransport` (the python2-era variant) and `EPPTCPTransport` (the
python3 rewrite) — together with proofs about their framing discipline.

## Socket model

The underlying stream socket is modelled by two pieces of data:

* `stream : List Nat` — the bytes the peer will deliver, in order; an
  exhausted stream means the peer has closed the connection, so every
  further read returns zero bytes;
* `sched : List Nat` — one entry per `recv` call, giving how many bytes
  the kernel happens to have available for that call (partial-read
  fragmentation).  A call `recv(n)` with availability `a` returns
  `stream.take (min n a)` and leaves `stream.drop (min n a)`.  An entry
  of `0` with a non-empty stream models a transient zero-length read;
  an exhausted schedule, like an exhausted stream, yields zero-length
  reads from then on.

Writes are modelled as delivered in full (blocking-socket behaviour);
`time.sleep` and logging are not modelled.  `sys.exit(code)` is modelled
as the `.exit code` outcome, a raised exception as `.err e`.
-/

/-- Embeds `struct.pack("!I", v)` — the 4-byte big-endian encoding of `v < 2^32`
(`packfmt = "!I"` at `epp.py:45`). -/
def be32 (v : Nat) : List Nat :=
  [v / 16777216 % 256, v / 65536 % 256, v / 256 % 256, v % 256]

/-- Embeds `struct.pack("=L", v)` on a little-endian host: the 4-byte
little-endian encoding of `v < 2^32`. -/
def le32 (v : Nat) : List Nat :=
  [v % 256, v / 256 % 256, v / 65536 % 256, v / 16777216 % 256]

/-- Embeds `socket.htonl` on a little-endian host: swap the four bytes of a
32-bit value. -/
def bswap32 (v : Nat) : Nat :=
  v % 256 * 16777216 + v / 256 % 256 * 65536 + v / 65536 % 256 * 256 + v / 16777216 % 256

/-- Embeds `struct.unpack("!I", header)[0]` for a 4-byte header
(`epp.py:141` and `epp.py:252`). -/
def fromBE4 : List Nat → Nat
  | [a, b, c, d] => ((a * 256 + b) * 256 + c) * 256 + d
  | _ => 0

/-- The distinguishable failures the transport code can signal. -/
inductive TError where
  /-- `TCPTransportError` "Did not receive anything from server …"
  (`epp.py:130`). -/
  | headerTimeout
  /-- `TCPTransportError` "Could not receive the rest of the expected
  message header. Only have {0} bytes out of expected {1}." (`epp.py:152`). -/
  | bodyShort (received expected : Nat)
  /-- `ValueError` raised by `sock.recv(n)` when `n < 0` (`epp.py:156`
  with `bytes1 < 4`). -/
  | negativeRecvSize
  /-- an uncaught `socket.error` from `sock.connect` (`epp.py:104`). -/
  | socketError
  /-- `UnicodeDecodeError` from `str(total, 'utf-8')` (`epp.py:269`). -/
  | decodeError
deriving DecidableEq

/-- Outcome of a transport operation: a normal return, a raised
exception, or a `sys.exit(code)` process termination. -/
inductive TResult (α : Type) where
  | ok : α → TResult α
  | err : TError → TResult α
  | exit : Nat → TResult α
deriving DecidableEq

/-- Whether an outcome is a raised exception (as opposed to a normal
return or a process exit). -/
def TResult.isRaise : TResult α → Bool
  | .err _ => true
  | _ => false

/-! ## `TCPTransport` (epp.py lines 73–182) -/

/-- The header-accumulation loop of `TCPTransport.get` (`epp.py:119-139`):
`recv(4)` until 4 header bytes are collected, retrying a zero-length read
with a 0.5 s sleep while `loopCount < tries = 5` and raising
`TCPTransportError` once `loopCount >= 5`; bytes past the fourth are split
off into `rest`.  Returns `(remaining schedule, remaining stream, header,
rest)`.  An exhausted schedule means every further read is zero-length, so
the retry loop is bound to end in the same `TCPTransportError`. -/
def tcpHeaderLoop : List Nat → List Nat → List Nat → Nat →
    TResult (List Nat × List Nat × List Nat × List Nat)
  | [], _, _, _ => .err .headerTimeout
  | a :: sched, stream, header, loopCount =>
    let chunk := stream.take (min 4 a)
    if chunk.length = 0 then
      if 5 ≤ loopCount then .err .headerTimeout
      else tcpHeaderLoop sched (stream.drop (min 4 a)) header (loopCount + 1)
    else
      let header' := header ++ chunk
      if header'.length < 4 then
        tcpHeaderLoop sched (stream.drop (min 4 a)) header' loopCount
      else
        .ok (sched, stream.drop (min 4 a), header'.take 4, header'.drop 4)

/-- The TLS body loop of `TCPTransport.get` (`epp.py:143-154`): while fewer
than `bytes1 - 4` body bytes have accumulated, read up to 16384 more; a
zero-length read raises `TCPTransportError` reporting received versus
expected counts.  Returns `(body, remaining stream)`. -/
def tcpSslBody : List Nat → List Nat → List Nat → Nat → TResult (List Nat × List Nat)
  | [], stream, total, bytes1 =>
    if (total.length : Int) < (bytes1 : Int) - 4 then
      .err (.bodyShort total.length (bytes1 - 4))
    else .ok (total, stream)
  | a :: sched, stream, total, bytes1 =>
    if (total.length : Int) < (bytes1 : Int) - 4 then
      let chunk := stream.take (min 16384 a)
      if chunk.length = 0 then .err (.bodyShort total.length (bytes1 - 4))
      else tcpSslBody sched (stream.drop (min 16384 a)) (total ++ chunk) bytes1
    else .ok (total, stream)

/-- Embeds `TCPTransport.get` (`epp.py:112-161`).  After the header loop,
`bytes1` is decoded big-endian; the TLS path accumulates the body starting
from the carry-over `rest`, while the plain path issues a single
`recv(bytes1 - 4, MSG_WAITALL)` — discarding `rest` and raising
`ValueError` if `bytes1 - 4` is negative.  Returns `(payload, bytes left
unread in the socket)`. -/
def tcpGet (isssl : Bool) (sched stream : List Nat) : TResult (List Nat × List Nat) :=
  match tcpHeaderLoop sched stream [] 0 with
  | .err e => .err e
  | .exit c => .exit c
  | .ok (sched', stream', header, rest) =>
    let bytes1 := fromBE4 header
    if isssl then
      tcpSslBody sched' stream' rest bytes1
    else
      if (bytes1 : Int) - 4 < 0 then .err .negativeRecvSize
      else
        match sched' with
        | [] => .ok ([], stream')
        | a :: _ =>
          .ok (stream'.take (min (bytes1 - 4) a), stream'.drop (min (bytes1 - 4) a))

/-- Embeds `TCPTransport.send` (`epp.py:163-168`): the 4-byte big-endian encoding
of `len(data) + 4` followed by the payload; `struct.pack("!I", v)` raises
`struct.error` for `v ≥ 2^32`, modelled as `none`. -/
def tcpSendWire (data : List Nat) : Option (List Nat) :=
  if data.length + 4 < 4294967296 then some (be32 (data.length + 4) ++ data)
  else none

/-- Embeds `TCPTransport.__init__` (`epp.py:87-110`): with `usessl`, a failed
`connect` is caught by the bare `except:` which prints and calls
`sys.exit(1)`; without TLS the `socket.error` propagates to the caller.
Unless `nogreeting`, the greeting is read with `self.get()`.  Returns the
stored greeting. -/
def tcpInit (usessl connectOk nogreeting : Bool) (sched stream : List Nat) :
    TResult (List Nat) :=
  if usessl then
    if connectOk = false then .exit 1
    else if nogreeting then .ok []
    else
      match tcpGet true sched stream with
      | .ok (g, _) => .ok g
      | .err e => .err e
      | .exit c => .exit c
  else
    if connectOk = false then .err .socketError
    else if nogreeting then .ok []
    else
      match tcpGet false sched stream with
      | .ok (g, _) => .ok g
      | .err e => .err e
      | .exit c => .exit c

/-! ## `EPPTCPTransport` (epp.py lines 187–296) -/

/-- The header-accumulation loop of `EPPTCPTransport.get` (`epp.py:225-250`):
`recv(4)` until 4 header bytes are collected; a zero-length read prints a
diagnostic and calls `sys.exit(1)` — there is no retry; bytes past the
fourth are split off into `rest`.  Returns `(remaining schedule, remaining
stream, header, rest)`. -/
def eppHeaderLoop : List Nat → List Nat → List Nat →
    TResult (List Nat × List Nat × List Nat × List Nat)
  | [], _, _ => .exit 1
  | a :: sched, stream, header =>
    let chunk := stream.take (min 4 a)
    if chunk.length = 0 then .exit 1
    else
      let header' := header ++ chunk
      if header'.length < 4 then
        eppHeaderLoop sched (stream.drop (min 4 a)) header'
      else
        .ok (sched, stream.drop (min 4 a), header'.take 4, header'.drop 4)

/-- The body loop of `EPPTCPTransport.get` (`epp.py:257-268`): while fewer
than `bytes1 - 4` body bytes have accumulated, `recv(bytesleft)` requests
exactly the missing count; a zero-length read prints a diagnostic with the
received/expected counts and calls `sys.exit(1)`.  Returns
`(body, remaining stream)`. -/
def eppBodyLoop : List Nat → List Nat → List Nat → Nat → TResult (List Nat × List Nat)
  | [], stream, total, bytes1 =>
    if (total.length : Int) < (bytes1 : Int) - 4 then .exit 1
    else .ok (total, stream)
  | a :: sched, stream, total, bytes1 =>
    if (total.length : Int) < (bytes1 : Int) - 4 then
      let bytesleft := bytes1 - 4 - total.length
      let chunk := stream.take (min bytesleft a)
      if chunk.length = 0 then .exit 1
      else eppBodyLoop sched (stream.drop (min bytesleft a)) (total ++ chunk) bytes1
    else .ok (total, stream)

/-- Embeds `EPPTCPTransport.get` up to (but not including) the final
`str(total, 'utf-8')` (`epp.py:220-268`): header accumulation, big-endian
decode of `bytes1`, and body accumulation seeded with the header
carry-over `rest`.  Returns `(body bytes, bytes left unread)`. -/
def eppGetBytes (sched stream : List Nat) : TResult (List Nat × List Nat) :=
  match eppHeaderLoop sched stream [] with
  | .err e => .err e
  | .exit c => .exit c
  | .ok (sched', stream', header, rest) =>
    eppBodyLoop sched' stream' rest (fromBE4 header)

/-- Whether `b` is a UTF-8 continuation byte `0x80-0xBF`. -/
def utf8Cont (b : Nat) : Bool := b / 64 = 2

/-- The constraint Python's strict UTF-8 decoder places on the byte after
a multi-byte leader: `E0` excludes overlong forms, `ED` excludes
surrogates, `F0` excludes overlong forms, `F4` caps at `U+10FFFF`. -/
def utf8Second (b b2 : Nat) : Bool :=
  if b = 224 then decide (160 ≤ b2 ∧ b2 < 192)
  else if b = 237 then decide (128 ≤ b2 ∧ b2 < 160)
  else if b = 240 then decide (144 ≤ b2 ∧ b2 < 192)
  else if b = 244 then decide (128 ≤ b2 ∧ b2 < 144)
  else utf8Cont b2

/-- Python's strict `bytes.decode('utf-8')`: the decoded code points, or
`none` on any invalid, overlong, surrogate, out-of-range or truncated
sequence. -/
def utf8Decode : List Nat → Option (List Nat)
  | [] => some []
  | b :: r =>
    if b < 128 then (utf8Decode r).map (b :: ·)
    else if b < 194 then none
    else if b < 224 then
      match r with
      | b2 :: r2 =>
        if utf8Cont b2 then (utf8Decode r2).map (((b - 192) * 64 + (b2 - 128)) :: ·)
        else none
      | [] => none
    else if b < 240 then
      match r with
      | b2 :: b3 :: r3 =>
        if utf8Second b b2 && utf8Cont b3 then
          (utf8Decode r3).map (((b - 224) * 4096 + (b2 - 128) * 64 + (b3 - 128)) :: ·)
        else none
      | _ => none
    else if b < 245 then
      match r with
      | b2 :: b3 :: b4 :: r4 =>
        if utf8Second b b2 && utf8Cont b3 && utf8Cont b4 then
          (utf8Decode r4).map
            (((b - 240) * 262144 + (b2 - 128) * 4096 + (b3 - 128) * 64 + (b4 - 128)) :: ·)
        else none
      | _ => none
    else none

/-- Embeds `EPPTCPTransport.get` (`epp.py:220-269`) including the final
`str(total, 'utf-8')`: the body bytes decoded as UTF-8 code points, with
`UnicodeDecodeError` on undecodable bytes.  Returns
`(code points, bytes left unread)`. -/
def eppGet (sched stream : List Nat) : TResult (List Nat × List Nat) :=
  match eppGetBytes sched stream with
  | .ok (total, stream') =>
    match utf8Decode total with
    | some cps => .ok (cps, stream')
    | none => .err .decodeError
  | .err e => .err e
  | .exit c => .exit c

/-- Embeds `socket.htonl(v)` followed by `struct.pack('=L', ·)` as in
`EPPTCPTransport.send` (`epp.py:275`): `htonl` raises `OverflowError`
for `v ≥ 2^32` (modelled as `none`); on a little-endian host it swaps
the bytes and `'=L'` packs little-endian, on a big-endian host both are
the identity/big-endian. -/
def packHtonl (littleEndian : Bool) (v : Nat) : Option (List Nat) :=
  if v < 4294967296 then
    some (if littleEndian then le32 (bswap32 v) else be32 v)
  else none

/-- Embeds `EPPTCPTransport.send` (`epp.py:272-279`): writes
`struct.pack('=L', htonl(len(data) + 4))` then the payload. -/
def eppSendWire (littleEndian : Bool) (data : List Nat) : Option (List Nat) :=
  (packHtonl littleEndian (data.length + 4)).map (· ++ data)

/-! ## `EPPTCPTransport.request` (epp.py lines 282–288) -/

/-- The decimal rendering `"%s" % r` of a python integer. -/
def natDigits (n : Nat) : List Char :=
  if n < 10 then [Nat.digitChar n]
  else natDigits (n / 10) ++ [Nat.digitChar (n % 10)]
decreasing_by exact Nat.div_lt_self (by omega) (by omega)

/-- The placeholder token `'__CLTRID__'` (`epp.py:286`). -/
def cltridToken : List Char := ['_', '_', 'C', 'L', 'T', 'R', 'I', 'D', '_', '_']

/-- Embeds `cltrid = "EPPTEST-%s.%s" % (time.time(), random.randint(0, 1000000))`
(`epp.py:284`), with the rendered `time.time()` float supplied as the
character list `t` and the random draw as `r`. -/
def genCltrid (t : List Char) (r : Nat) : List Char :=
  ['E', 'P', 'P', 'T', 'E', 'S', 'T', '-'] ++ t ++ '.' :: natDigits r

/-- Whether `pat` is an initial segment of `s` (python's substring match
at the current scan position inside `str.replace`). -/
def headMatches : List Char → List Char → Bool
  | [], _ => true
  | _ :: _, [] => false
  | p :: ps, c :: cs => p == c && headMatches ps cs

/-- Python's `str.replace(pat, rep)`: scan left to right, replacing each
non-overlapping occurrence of `pat` and resuming after it. -/
def replaceAll (pat rep : List Char) : List Char → List Char
  | [] => []
  | c :: rest =>
    if headMatches pat (c :: rest) then
      rep ++ replaceAll pat rep (rest.drop (pat.length - 1))
    else c :: replaceAll pat rep rest
termination_by s => s.length
decreasing_by
  · simp only [List.length_drop, List.length_cons]; omega
  · simp

/-- Embeds `EPPTCPTransport.request` (`epp.py:282-288`) up to the `send`:
generates one `cltrid` from the draws `(t, r)`, stores it in
`self._lastcltrid`, and substitutes it for every `'__CLTRID__'` in the
template.  Returns `(self._lastcltrid, the substituted payload text)`. -/
def eppRequest (template : List Char) (t : List Char) (r : Nat) :
    List Char × List Char :=
  let cltrid := genCltrid t r
  (cltrid, replaceAll cltridToken cltrid template)

/-- A template containing the placeholder twice,
`'A__CLTRID__B__CLTRID__'`, for exercising the substitution. -/
def demoTemplate : List Char := 'A' :: (cltridToken ++ ('B' :: cltridToken))

/-! ## Byte-level lemmas -/

/-- Decoding the 4-byte big-endian encoding recovers the value. -/
theorem fromBE4_be32 (v : Nat) (h : v < 4294967296) : fromBE4 (be32 v) = v := by
  simp only [be32, fromBE4]
  omega

/-- On a little-endian host, packing the byte-swapped value little-endian
produces exactly the big-endian byte sequence. -/
theorem le32_bswap32 (v : Nat) : le32 (bswap32 v) = be32 v := by
  simp only [le32, bswap32, be32, List.cons.injEq, and_true]
  have ha : v % 256 < 256 := Nat.mod_lt _ (by omega)
  have hb : v / 256 % 256 < 256 := Nat.mod_lt _ (by omega)
  have hc : v / 65536 % 256 < 256 := Nat.mod_lt _ (by omega)
  have hd : v / 16777216 % 256 < 256 := Nat.mod_lt _ (by omega)
  generalize v % 256 = a at *
  generalize v / 256 % 256 = b at *
  generalize v / 65536 % 256 = c at *
  generalize v / 16777216 % 256 = d at *
  omega

/-! ## `TCPTransport.get` header-loop lemmas -/

/-- On a closed connection (empty stream) every read is zero-length, so
the header loop always ends in the `TCPTransportError` about the missing
header, whatever the schedule and retry count. -/
theorem tcpHeaderLoop_closed (sched : List Nat) :
    ∀ header loopCount, tcpHeaderLoop sched [] header loopCount = .err .headerTimeout := by
  induction sched with
  | nil => intro header lc; rfl
  | cons a sched ih =>
    intro header lc
    simp only [tcpHeaderLoop, List.take_nil, List.length_nil, List.drop_nil, if_pos]
    by_cases h5 : 5 ≤ lc
    · simp [h5]
    · simp [h5, ih]

/-- A read with at least 4 bytes available while the whole 4-byte header
is still pending completes the header in one call, with no carry-over. -/
theorem tcpHeaderLoop_greedy (a : Nat) (ha : 4 ≤ a) (sched : List Nat)
    (h4 p : List Nat) (hlen : h4.length = 4) (lc : Nat) :
    tcpHeaderLoop (a :: sched) (h4 ++ p) [] lc = .ok (sched, p, h4, []) := by
  have hmin : min 4 a = 4 := Nat.min_eq_left ha
  have ht : (h4 ++ p).take 4 = h4 := by rw [← hlen]; exact List.take_left _ _
  have hd : (h4 ++ p).drop 4 = p := by rw [← hlen]; exact List.drop_left _ _
  simp [tcpHeaderLoop, hmin, ht, hd, hlen,
    List.take_of_length_le hlen.le, List.drop_eq_nil_of_le hlen.le]

/-- A zero-availability read while the retry budget is not yet exhausted
just bumps `loopCount`: `k` transient zero-length reads in a row shift the
count by `k` as long as the budget allows. -/
theorem tcpHeaderLoop_zeros (k : Nat) :
    ∀ (sched stream header : List Nat) (lc : Nat), lc + k ≤ 5 →
      tcpHeaderLoop (List.replicate k 0 ++ sched) stream header lc =
        tcpHeaderLoop sched stream header (lc + k) := by
  induction k with
  | zero => intro sched stream header lc _; simp
  | succ k ih =>
    intro sched stream header lc hk
    have h5 : ¬ 5 ≤ lc := by omega
    simp only [List.replicate_succ, List.cons_append, tcpHeaderLoop, Nat.min_zero,
      List.take_zero, List.length_nil, if_pos, h5, if_false, List.drop_zero]
    have := ih sched stream header (lc + 1) (by omega)
    simpa [Nat.add_assoc, Nat.add_comm 1 k] using this

/-- The sixth consecutive zero-length read exhausts the retry budget and
raises the header `TCPTransportError`. -/
theorem tcpHeaderLoop_six_zeros (sched stream header : List Nat) :
    tcpHeaderLoop (List.replicate 6 0 ++ sched) stream header 0 = .err .headerTimeout := by
  have h6 : List.replicate 6 0 ++ sched = List.replicate 5 0 ++ (0 :: sched) := by
    simp [List.replicate]
  rw [h6, tcpHeaderLoop_zeros 5 (0 :: sched) stream header 0 (by omega)]
  simp [tcpHeaderLoop]

/-! ## Body-loop lemmas -/

/-- Taking beyond the length is the same as taking clamped to the length. -/
theorem take_min_len (l : List α) (n : Nat) : l.take n = l.take (min n l.length) := by
  rcases Nat.le_total n l.length with h | h
  · rw [Nat.min_eq_left h]
  · rw [Nat.min_eq_right h, List.take_of_length_le h, List.take_length]

/-- Dropping beyond the length is the same as dropping clamped to the length. -/
theorem drop_min_len (l : List α) (n : Nat) : l.drop n = l.drop (min n l.length) := by
  rcases Nat.le_total n l.length with h | h
  · rw [Nat.min_eq_left h]
  · rw [Nat.min_eq_right h, List.drop_eq_nil_of_le h, List.drop_length]

/-- The TLS body loop of `TCPTransport.get` accumulates exactly the
remaining `bytes1 - 4 - total.length` stream bytes whenever the stream
holds exactly them, every read has positive availability, and the
schedule has enough entries. -/
theorem tcpSslBody_ok (sched : List Nat) :
    ∀ (total B : List Nat) (bytes1 : Nat),
      (∀ a ∈ sched, 1 ≤ a) → B.length ≤ sched.length →
      total.length + B.length + 4 = bytes1 →
      tcpSslBody sched B total bytes1 = .ok (total ++ B, []) := by
  induction sched with
  | nil =>
    intro total B bytes1 _ hlen hsum
    simp only [List.length_nil, Nat.le_zero, List.length_eq_zero] at hlen
    subst hlen
    simp only [List.length_nil] at hsum
    simp only [tcpSslBody]
    rw [if_neg (by omega)]
    simp
  | cons a sched ih =>
    intro total B bytes1 hpos hlen hsum
    have ha : 1 ≤ a := hpos a (by simp)
    cases B with
    | nil =>
      simp only [List.length_nil] at hsum
      simp only [tcpSslBody]
      rw [if_neg (by omega)]
      simp
    | cons b B =>
      simp only [List.length_cons] at hsum hlen
      simp only [tcpSslBody]
      rw [if_pos (by omega)]
      have hchunk : ¬ ((b :: B).take (min 16384 a)).length = 0 := by
        simp only [List.length_take, List.length_cons]
        omega
      rw [if_neg hchunk]
      rw [ih (total ++ (b :: B).take (min 16384 a)) ((b :: B).drop (min 16384 a)) bytes1
          (fun x hx => hpos x (List.mem_cons_of_mem a hx))
          (by simp only [List.length_drop, List.length_cons] at hlen ⊢; omega)
          (by simp only [List.length_append, List.length_take, List.length_drop,
                List.length_cons] at hsum ⊢; omega)]
      rw [List.append_assoc, List.take_append_drop]

/-- The body loop of `EPPTCPTransport.get` consumes exactly the remaining
`bytes1 - 4 - total.length` bytes and leaves any following bytes `Q`
untouched, whenever every read has positive availability and the schedule
has enough entries. -/
theorem eppBodyLoop_ok (sched : List Nat) :
    ∀ (total B Q : List Nat) (bytes1 : Nat),
      (∀ a ∈ sched, 1 ≤ a) → B.length ≤ sched.length →
      total.length + B.length + 4 = bytes1 →
      eppBodyLoop sched (B ++ Q) total bytes1 = .ok (total ++ B, Q) := by
  induction sched with
  | nil =>
    intro total B Q bytes1 _ hlen hsum
    simp only [List.length_nil, Nat.le_zero, List.length_eq_zero] at hlen
    subst hlen
    simp only [List.length_nil] at hsum
    simp only [eppBodyLoop, List.nil_append]
    rw [if_neg (by omega)]
    simp
  | cons a sched ih =>
    intro total B Q bytes1 hpos hlen hsum
    have ha : 1 ≤ a := hpos a (by simp)
    cases B with
    | nil =>
      simp only [List.length_nil] at hsum
      simp only [eppBodyLoop, List.nil_append]
      rw [if_neg (by omega)]
      simp
    | cons b B =>
      simp only [List.length_cons] at hsum hlen
      simp only [eppBodyLoop]
      rw [if_pos (by omega)]
      have hbl : bytes1 - 4 - total.length = (b :: B).length := by
        simp only [List.length_cons]; omega
      rw [hbl]
      have hmle : min (b :: B).length a ≤ (b :: B).length := Nat.min_le_left _ _
      rw [List.take_append_of_le_length hmle, List.drop_append_of_le_length hmle]
      have hchunk : ¬ ((b :: B).take (min (b :: B).length a)).length = 0 := by
        simp only [List.length_take, List.length_cons]
        omega
      rw [if_neg hchunk]
      rw [ih (total ++ (b :: B).take (min (b :: B).length a))
          ((b :: B).drop (min (b :: B).length a)) Q bytes1
          (fun x hx => hpos x (List.mem_cons_of_mem a hx))
          (by simp only [List.length_drop, List.length_cons] at hlen ⊢; omega)
          (by simp only [List.length_append, List.length_take, List.length_drop,
                List.length_cons] at hsum ⊢; omega)]
      rw [List.append_assoc, List.take_append_drop]

/-! ## `EPPTCPTransport.get` header-loop lemma -/

/-- Under any positive-availability schedule long enough to drain the
stream, the header loop of `EPPTCPTransport.get` consumes some `k`
(`4 ≤ header.length + k ≤ 7`) bytes, returns the first 4 accumulated
bytes as the header, and keeps the overflow beyond 4 as the carry-over,
losing nothing: header, carry-over and remaining stream partition the
input exactly. -/
theorem eppHeaderLoop_spec (sched : List Nat) :
    ∀ (stream header : List Nat),
      (∀ a ∈ sched, 1 ≤ a) → stream.length ≤ sched.length →
      header.length < 4 → 4 ≤ header.length + stream.length →
      ∃ (k : Nat) (sched' : List Nat),
        eppHeaderLoop sched stream header =
          .ok (sched', stream.drop k,
               (header ++ stream.take k).take 4, (header ++ stream.take k).drop 4) ∧
        1 ≤ k ∧ k ≤ stream.length ∧ 4 ≤ header.length + k ∧ header.length + k ≤ 7 ∧
        (∀ a ∈ sched', 1 ≤ a) ∧ stream.length - k ≤ sched'.length := by
  induction sched with
  | nil =>
    intro stream header _ hlen h4 hsum
    exfalso
    simp only [List.length_nil, Nat.le_zero, List.length_eq_zero] at hlen
    subst hlen
    simp only [List.length_nil] at hsum
    omega
  | cons a sched ih =>
    intro stream header hpos hlen h4 hsum
    have ha : 1 ≤ a := hpos a (by simp)
    have hsl : 1 ≤ stream.length := by omega
    have hm1 : 1 ≤ min 4 a := by omega
    have hclen : (stream.take (min 4 a)).length = min (min 4 a) stream.length :=
      List.length_take _ _
    have hchunkpos : ¬ ((stream.take (min 4 a)).length = 0) := by
      rw [hclen]; omega
    simp only [List.length_cons] at hlen
    simp only [eppHeaderLoop]
    rw [if_neg hchunkpos]
    by_cases hfull : (header ++ stream.take (min 4 a)).length < 4
    · -- the read did not yet complete the 4-byte header: keep looping
      have hfull' : header.length + min (min 4 a) stream.length < 4 := by
        simpa only [List.length_append, hclen] using hfull
      have hlt : min 4 a < stream.length := by omega
      rw [if_pos hfull]
      obtain ⟨k, sched', hrec, hk1, hk2, hk3, hk4, hpos', hlen'⟩ :=
        ih (stream.drop (min 4 a)) (header ++ stream.take (min 4 a))
          (fun x hx => hpos x (List.mem_cons_of_mem a hx))
          (by simp only [List.length_drop]; omega)
          hfull
          (by simp only [List.length_append, List.length_take, List.length_drop]; omega)
      simp only [List.length_drop] at hk2 hlen'
      simp only [List.length_append, List.length_take] at hk3 hk4
      refine ⟨min 4 a + k, sched', ?_, by omega, by omega, by omega, by omega, hpos', by omega⟩
      rw [hrec, List.drop_drop, List.append_assoc, ← List.take_add]
    · -- the header is complete: the bytes past the fourth become carry-over
      have hfull' : 4 ≤ header.length + min (min 4 a) stream.length := by
        have := hfull
        simp only [List.length_append, hclen] at this
        omega
      rw [if_neg hfull]
      refine ⟨min (min 4 a) stream.length, sched, ?_, by omega, by omega, by omega,
        by omega, fun x hx => hpos x (List.mem_cons_of_mem a hx), by omega⟩
      rw [← take_min_len, ← drop_min_len]

/-- Running `EPPTCPTransport.get` (byte level) on a well-formed frame followed by
any later bytes `Q`: under any positive-availability schedule long enough
to drain the stream, the returned payload is exactly the frame body and
`Q` is left unread — provided the header carry-over cannot overrun the
body (`3 ≤ P.length`, since the carry-over is at most 3 bytes) or there
are no later bytes at all (`Q = []`). -/
theorem eppGetBytes_frame (P Q sched : List Nat)
    (hpos : ∀ a ∈ sched, 1 ≤ a) (hsched : P.length + Q.length + 4 ≤ sched.length)
    (hbound : P.length + 4 < 4294967296) (hPQ : 3 ≤ P.length ∨ Q = []) :
    eppGetBytes sched (be32 (P.length + 4) ++ (P ++ Q)) = .ok (P, Q) := by
  have hbe : (be32 (P.length + 4)).length = 4 := rfl
  have hsl : (be32 (P.length + 4) ++ (P ++ Q)).length = 4 + (P.length + Q.length) := by
    simp only [List.length_append, hbe]
  obtain ⟨k, sched', hrec, hk1, hk2, hk3, hk4, hpos', hlen'⟩ :=
    eppHeaderLoop_spec sched (be32 (P.length + 4) ++ (P ++ Q)) [] hpos
      (by rw [hsl]; omega) (by simp) (by rw [List.length_nil, hsl]; omega)
  simp only [List.nil_append, List.length_nil, Nat.zero_add] at hrec hk3 hk4
  rw [hsl] at hk2
  have hkP : k - 4 ≤ P.length := by
    rcases hPQ with h3 | hQ
    · omega
    · subst hQ; simp only [List.length_nil] at hk2 ⊢; omega
  have htk : (be32 (P.length + 4) ++ (P ++ Q)).take k =
      be32 (P.length + 4) ++ P.take (k - 4) := by
    rw [List.take_append_eq_append_take, List.take_of_length_le (by omega), hbe,
      List.take_append_of_le_length hkP]
  have hdk : (be32 (P.length + 4) ++ (P ++ Q)).drop k = P.drop (k - 4) ++ Q := by
    rw [List.drop_append_eq_append_drop, List.drop_eq_nil_of_le (by omega), hbe,
      List.drop_append_of_le_length hkP, List.nil_append]
  have hhd : ((be32 (P.length + 4) ++ (P ++ Q)).take k).take 4 = be32 (P.length + 4) := by
    rw [htk, List.take_left' hbe]
  have hrest : ((be32 (P.length + 4) ++ (P ++ Q)).take k).drop 4 = P.take (k - 4) := by
    rw [htk, List.drop_left' hbe]
  rw [hdk, hhd, hrest] at hrec
  simp only [eppGetBytes, hrec]
  rw [fromBE4_be32 _ hbound]
  rw [eppBodyLoop_ok sched' (P.take (k - 4)) (P.drop (k - 4)) Q (P.length + 4) hpos'
      (by simp only [List.length_drop]; omega)
      (by simp only [List.length_take, List.length_drop]; omega)]
  rw [List.take_append_drop]

/-- Under any positive-availability schedule long enough to drain the
stream, the header loop of `TCPTransport.get` never takes its
zero-length-read retry branch and, like `eppHeaderLoop`, consumes some
`k` (`4 ≤ header.length + k ≤ 7`) bytes, returning the first 4
accumulated bytes as the header and the overflow beyond 4 as the
carry-over `rest`, whatever the current retry count. -/
theorem tcpHeaderLoop_spec (sched : List Nat) :
    ∀ (stream header : List Nat) (lc : Nat),
      (∀ a ∈ sched, 1 ≤ a) → stream.length ≤ sched.length →
      header.length < 4 → 4 ≤ header.length + stream.length →
      ∃ (k : Nat) (sched' : List Nat),
        tcpHeaderLoop sched stream header lc =
          .ok (sched', stream.drop k,
               (header ++ stream.take k).take 4, (header ++ stream.take k).drop 4) ∧
        1 ≤ k ∧ k ≤ stream.length ∧ 4 ≤ header.length + k ∧ header.length + k ≤ 7 ∧
        (∀ a ∈ sched', 1 ≤ a) ∧ stream.length - k ≤ sched'.length := by
  induction sched with
  | nil =>
    intro stream header lc _ hlen h4 hsum
    exfalso
    simp only [List.length_nil, Nat.le_zero, List.length_eq_zero] at hlen
    subst hlen
    simp only [List.length_nil] at hsum
    omega
  | cons a sched ih =>
    intro stream header lc hpos hlen h4 hsum
    have ha : 1 ≤ a := hpos a (by simp)
    have hsl : 1 ≤ stream.length := by omega
    have hm1 : 1 ≤ min 4 a := by omega
    have hclen : (stream.take (min 4 a)).length = min (min 4 a) stream.length :=
      List.length_take _ _
    have hchunkpos : ¬ ((stream.take (min 4 a)).length = 0) := by
      rw [hclen]; omega
    simp only [List.length_cons] at hlen
    simp only [tcpHeaderLoop]
    rw [if_neg hchunkpos]
    by_cases hfull : (header ++ stream.take (min 4 a)).length < 4
    · -- the read did not yet complete the 4-byte header: keep looping
      have hfull' : header.length + min (min 4 a) stream.length < 4 := by
        simpa only [List.length_append, hclen] using hfull
      have hlt : min 4 a < stream.length := by omega
      rw [if_pos hfull]
      obtain ⟨k, sched', hrec, hk1, hk2, hk3, hk4, hpos', hlen'⟩ :=
        ih (stream.drop (min 4 a)) (header ++ stream.take (min 4 a)) lc
          (fun x hx => hpos x (List.mem_cons_of_mem a hx))
          (by simp only [List.length_drop]; omega)
          hfull
          (by simp only [List.length_append, List.length_take, List.length_drop]; omega)
      simp only [List.length_drop] at hk2 hlen'
      simp only [List.length_append, List.length_take] at hk3 hk4
      refine ⟨min 4 a + k, sched', ?_, by omega, by omega, by omega, by omega, hpos', by omega⟩
      rw [hrec, List.drop_drop, List.append_assoc, ← List.take_add]
    · -- the header is complete: the bytes past the fourth become carry-over
      have hfull' : 4 ≤ header.length + min (min 4 a) stream.length := by
        have := hfull
        simp only [List.length_append, hclen] at this
        omega
      rw [if_neg hfull]
      refine ⟨min (min 4 a) stream.length, sched, ?_, by omega, by omega, by omega,
        by omega, fun x hx => hpos x (List.mem_cons_of_mem a hx), by omega⟩
      rw [← take_min_len, ← drop_min_len]

/-- Running the TLS path of `TCPTransport.get` on a well-formed frame:
under any positive-availability schedule long enough to drain the
stream, the header carry-over `rest` seeds the body accumulation
(`epp.py:145`) and the returned payload is exactly the frame's declared
body. -/
theorem tcpGet_tls_frame (P sched : List Nat)
    (hpos : ∀ a ∈ sched, 1 ≤ a) (hsched : P.length + 4 ≤ sched.length)
    (hbound : P.length + 4 < 4294967296) :
    tcpGet true sched (be32 (P.length + 4) ++ P) = .ok (P, []) := by
  have hbe : (be32 (P.length + 4)).length = 4 := rfl
  have hsl : (be32 (P.length + 4) ++ P).length = 4 + P.length := by
    simp only [List.length_append, hbe]
  obtain ⟨k, sched', hrec, hk1, hk2, hk3, hk4, hpos', hlen'⟩ :=
    tcpHeaderLoop_spec sched (be32 (P.length + 4) ++ P) [] 0 hpos
      (by rw [hsl]; omega) (by simp) (by rw [List.length_nil, hsl]; omega)
  simp only [List.nil_append, List.length_nil, Nat.zero_add] at hrec hk3 hk4
  rw [hsl] at hk2
  have hkP : k - 4 ≤ P.length := by omega
  have htk : (be32 (P.length + 4) ++ P).take k =
      be32 (P.length + 4) ++ P.take (k - 4) := by
    rw [List.take_append_eq_append_take, List.take_of_length_le (by omega), hbe]
  have hdk : (be32 (P.length + 4) ++ P).drop k = P.drop (k - 4) := by
    rw [List.drop_append_eq_append_drop, List.drop_eq_nil_of_le (by omega), hbe,
      List.nil_append]
  have hhd : ((be32 (P.length + 4) ++ P).take k).take 4 = be32 (P.length + 4) := by
    rw [htk, List.take_left' hbe]
  have hrest : ((be32 (P.length + 4) ++ P).take k).drop 4 = P.take (k - 4) := by
    rw [htk, List.drop_left' hbe]
  rw [hdk, hhd, hrest] at hrec
  unfold tcpGet
  rw [hrec]
  dsimp only
  rw [fromBE4_be32 _ hbound, if_pos rfl]
  rw [tcpSslBody_ok sched' (P.take (k - 4)) (P.drop (k - 4)) (P.length + 4) hpos'
      (by simp only [List.length_drop]; omega)
      (by simp only [List.length_take, List.length_drop]; omega)]
  rw [List.take_append_drop]

/-! ## Transaction-identifier lemmas -/

theorem natDigits_lt (n : Nat) (h : n < 10) : natDigits n = [Nat.digitChar n] := by
  rw [natDigits.eq_def]
  simp [h]

theorem natDigits_ge (n : Nat) (h : ¬ n < 10) :
    natDigits n = natDigits (n / 10) ++ [Nat.digitChar (n % 10)] := by
  conv_lhs => rw [natDigits.eq_def]
  simp [h]

theorem digitChar_ne_dot (k : Nat) (h : k < 10) : Nat.digitChar k ≠ '.' := by
  interval_cases k <;> decide

theorem digitChar_inj (a b : Nat) (ha : a < 10) (hb : b < 10)
    (h : Nat.digitChar a = Nat.digitChar b) : a = b := by
  have key : ∀ x : Fin 10, ∀ y : Fin 10,
      Nat.digitChar x.val = Nat.digitChar y.val → x = y := by decide
  have hf := key ⟨a, ha⟩ ⟨b, hb⟩ h
  exact congrArg Fin.val hf

/-- A decimal rendering contains no `'.'` character. -/
theorem natDigits_no_dot (n : Nat) : '.' ∉ natDigits n := by
  induction n using Nat.strong_induction_on with
  | _ n ih =>
    by_cases h : n < 10
    · rw [natDigits_lt n h]
      simp only [List.mem_singleton]
      exact fun hh => digitChar_ne_dot n h hh.symm
    · rw [natDigits_ge n h]
      simp only [List.mem_append, List.mem_singleton]
      rintro (hh | hh)
      · exact ih (n / 10) (Nat.div_lt_self (by omega) (by omega)) hh
      · exact digitChar_ne_dot (n % 10) (Nat.mod_lt _ (by omega)) hh.symm

theorem natDigits_ne_nil (n : Nat) : natDigits n ≠ [] := by
  by_cases h : n < 10
  · rw [natDigits_lt n h]; simp
  · rw [natDigits_ge n h]; simp

/-- Decimal renderings determine the number. -/
theorem natDigits_inj : ∀ (m n : Nat), natDigits m = natDigits n → m = n := by
  intro m
  induction m using Nat.strong_induction_on with
  | _ m ih =>
    intro n h
    by_cases hm : m < 10 <;> by_cases hn : n < 10
    · rw [natDigits_lt m hm, natDigits_lt n hn] at h
      simp only [List.cons.injEq, and_true] at h
      exact digitChar_inj m n hm hn h
    · exfalso
      rw [natDigits_lt m hm, natDigits_ge n hn] at h
      have hl := congrArg List.length h
      simp only [List.length_singleton, List.length_append] at hl
      exact natDigits_ne_nil (n / 10) (List.length_eq_zero.mp (by omega))
    · exfalso
      rw [natDigits_ge m hm, natDigits_lt n hn] at h
      have hl := congrArg List.length h
      simp only [List.length_singleton, List.length_append] at hl
      exact natDigits_ne_nil (m / 10) (List.length_eq_zero.mp (by omega))
    · rw [natDigits_ge m hm, natDigits_ge n hn] at h
      obtain ⟨h1, h2⟩ := List.append_inj' h (by simp)
      simp only [List.cons.injEq, and_true] at h2
      have hd := digitChar_inj (m % 10) (n % 10)
        (Nat.mod_lt _ (by omega)) (Nat.mod_lt _ (by omega)) h2
      have hq := ih (m / 10) (Nat.div_lt_self (by omega) (by omega)) (n / 10) h1
      omega

/-- If two strings `a ++ '.' ++ r1` and `b ++ '.' ++ r2` agree and neither
`r1` nor `r2` contains a dot, the pieces agree: the shown dot is the last
dot of the string, so the split is unambiguous. -/
theorem dot_split : ∀ (a b r1 r2 : List Char), '.' ∉ r1 → '.' ∉ r2 →
    a ++ '.' :: r1 = b ++ '.' :: r2 → a = b ∧ r1 = r2 := by
  intro a
  induction a with
  | nil =>
    intro b r1 r2 h1 h2 h
    cases b with
    | nil => simpa using h
    | cons c bs =>
      exfalso
      simp only [List.nil_append, List.cons_append, List.cons.injEq] at h
      apply h1
      rw [h.2]
      exact List.mem_append_right _ (List.mem_cons_self _ _)
  | cons c as ih =>
    intro b r1 r2 h1 h2 h
    cases b with
    | nil =>
      exfalso
      simp only [List.nil_append, List.cons_append, List.cons.injEq] at h
      apply h2
      rw [← h.2]
      exact List.mem_append_right _ (List.mem_cons_self _ _)
    | cons d bs =>
      simp only [List.cons_append, List.cons.injEq] at h
      obtain ⟨hab, hrr⟩ := ih bs r1 r2 h1 h2 h.2
      exact ⟨by rw [h.1, hab], hrr⟩

/-- Two generated `cltrid`s coincide exactly when both the rendered
timestamp and the random draw coincide. -/
theorem genCltrid_inj (t1 t2 : List Char) (r1 r2 : Nat) :
    genCltrid t1 r1 = genCltrid t2 r2 ↔ (t1 = t2 ∧ r1 = r2) := by
  constructor
  · intro h
    simp only [genCltrid, List.append_assoc] at h
    have h' := List.append_cancel_left h
    obtain ⟨ht, hd⟩ := dot_split t1 t2 (natDigits r1) (natDigits r2)
      (natDigits_no_dot r1) (natDigits_no_dot r2) h'
    exact ⟨ht, natDigits_inj _ _ hd⟩
  · rintro ⟨h1, h2⟩
    rw [h1, h2]

theorem headMatches_self_append (p s : List Char) : headMatches p (p ++ s) = true := by
  induction p with
  | nil => rfl
  | cons c cs ih => simp [headMatches, ih]

theorem replaceAll_nil (pat rep : List Char) : replaceAll pat rep [] = [] := by
  simp [replaceAll]

/-- At an occurrence of the pattern the scanner substitutes `rep` and
resumes after the pattern (python's non-overlapping semantics). -/
theorem replaceAll_match (pat rep s : List Char) (hne : pat ≠ []) :
    replaceAll pat rep (pat ++ s) = rep ++ replaceAll pat rep s := by
  cases pat with
  | nil => simp at hne
  | cons p ps =>
    have hm : headMatches (p :: ps) ((p :: ps) ++ s) = true := headMatches_self_append _ _
    simp only [List.cons_append] at hm ⊢
    rw [replaceAll]
    rw [if_pos hm]
    simp only [List.length_cons, Nat.succ_sub_one]
    rw [List.drop_left]

/-- A position where the pattern does not match is copied unchanged. -/
theorem replaceAll_skip (pat rep : List Char) (c : Char) (s : List Char)
    (h : headMatches pat (c :: s) = false) :
    replaceAll pat rep (c :: s) = c :: replaceAll pat rep s := by
  rw [replaceAll]
  simp [h]

/-- A read with at least 4 bytes available completes the pending 4-byte
header of `EPPTCPTransport.get` in one call, with no carry-over. -/
theorem eppHeaderLoop_greedy (a : Nat) (ha : 4 ≤ a) (sched : List Nat)
    (h4 p : List Nat) (hlen : h4.length = 4) :
    eppHeaderLoop (a :: sched) (h4 ++ p) [] = .ok (sched, p, h4, []) := by
  have hmin : min 4 a = 4 := Nat.min_eq_left ha
  have ht : (h4 ++ p).take 4 = h4 := by rw [← hlen]; exact List.take_left _ _
  have hd : (h4 ++ p).drop 4 = p := by rw [← hlen]; exact List.drop_left _ _
  simp [eppHeaderLoop, hmin, ht, hd, hlen,
    List.take_of_length_le hlen.le, List.drop_eq_nil_of_le hlen.le]

/-- Replacing inside the bare pattern yields the bare replacement. -/
theorem replaceAll_pat_only (pat rep : List Char) (hne : pat ≠ []) :
    replaceAll pat rep pat = rep := by
  have h := replaceAll_match pat rep [] hne
  rw [List.append_nil] at h
  rw [h, replaceAll_nil, List.append_nil]

/-- Substitution on the two-occurrence template replaces both occurrences
with the same replacement text. -/
theorem replaceAll_demoTemplate (rep : List Char) :
    replaceAll cltridToken rep demoTemplate = 'A' :: (rep ++ ('B' :: rep)) := by
  have hA : headMatches cltridToken ('A' :: (cltridToken ++ ('B' :: cltridToken))) = false := by
    decide
  have hB : headMatches cltridToken ('B' :: cltridToken) = false := by decide
  rw [show demoTemplate = 'A' :: (cltridToken ++ ('B' :: cltridToken)) from rfl]
  rw [replaceAll_skip _ _ _ _ hA]
  rw [replaceAll_match _ _ _ (by decide)]
  rw [replaceAll_skip _ _ _ _ hB]
  rw [replaceAll_pat_only _ _ (by decide)]

/-! ## The claims -/

/-- Claim **C1** — Frame round-trip.  For every payload `P` with
`0 ≤ len(P) ≤ 2^32 - 5`, `TCPTransport.send` frames `P` as the 4-byte
big-endian encoding of `len(P) + 4` followed by `P`, and `TCPTransport.get`
decoding that byte stream (plain path, and TLS path with enough reads)
returns exactly `P`; the zero-length payload (`totalLength` exactly 4) is
the instance `P := []` and yields the empty payload. -/
theorem C1_frame_roundtrip (P : List Nat) (h : P.length ≤ 4294967291) :
    tcpSendWire P = some (be32 (P.length + 4) ++ P) ∧
    tcpGet false [4294967296, 4294967296] (be32 (P.length + 4) ++ P) = .ok (P, []) ∧
    tcpGet true (4 :: List.replicate (P.length + 1) 4294967296)
      (be32 (P.length + 4) ++ P) = .ok (P, []) := by
  refine ⟨?_, ?_, ?_⟩
  · rw [tcpSendWire, if_pos (by omega)]
  · unfold tcpGet
    rw [tcpHeaderLoop_greedy 4294967296 (by omega) [4294967296] (be32 (P.length + 4)) P rfl 0]
    dsimp only
    rw [fromBE4_be32 _ (by omega)]
    rw [if_neg (by decide), if_neg (by push_cast; omega)]
    have hmin : min (P.length + 4 - 4) 4294967296 = P.length := by omega
    rw [hmin, List.take_length, List.drop_length]
  · unfold tcpGet
    rw [tcpHeaderLoop_greedy 4 (by omega) (List.replicate (P.length + 1) 4294967296)
      (be32 (P.length + 4)) P rfl 0]
    dsimp only
    rw [fromBE4_be32 _ (by omega)]
    rw [if_pos rfl]
    rw [tcpSslBody_ok (List.replicate (P.length + 1) 4294967296) [] P (P.length + 4)
      (fun x hx => by rw [List.eq_of_mem_replicate hx]; omega)
      (by simp) (by simp)]
    rw [List.nil_append]

/-- Witness for C1 at the concrete payloads `[]` (the `totalLength = 4`
edge case) and the 6 bytes of `'<epp/>'`. -/
theorem C1_frame_roundtrip_witness :
    tcpGet false [4294967296, 4294967296] (be32 4 ++ []) = .ok ([], []) ∧
    tcpGet true (4 :: List.replicate 7 4294967296)
      (be32 10 ++ [60, 101, 112, 112, 47, 62]) =
      .ok ([60, 101, 112, 112, 47, 62], []) :=
  ⟨(C1_frame_roundtrip [] (by decide)).2.1,
   (C1_frame_roundtrip [60, 101, 112, 112, 47, 62] (by decide)).2.2⟩

/-- Claim **C2** — Send wire format.  For every payload of `N ≤ 2^32 - 5` bytes,
`TCPTransport.send` and `EPPTCPTransport.send` (on either host byte order)
both put the 4-byte big-endian encoding of `N + 4` followed by the `N`
payload bytes on the wire; concretely the 6-byte payload `'<epp/>'`
produces `00 00 00 0A` followed by `<epp/>`. -/
theorem C2_send_wire (P : List Nat) (littleEndian : Bool) (h : P.length ≤ 4294967291) :
    tcpSendWire P = some (be32 (P.length + 4) ++ P) ∧
    eppSendWire littleEndian P = some (be32 (P.length + 4) ++ P) ∧
    tcpSendWire [60, 101, 112, 112, 47, 62] =
      some [0, 0, 0, 10, 60, 101, 112, 112, 47, 62] := by
  refine ⟨by rw [tcpSendWire, if_pos (by omega)], ?_, by decide⟩
  rw [eppSendWire, packHtonl, if_pos (by omega)]
  cases littleEndian
  · simp [Option.map_some']
  · simp [Option.map_some', le32_bswap32]

/-- Witness for C2 at the `'<epp/>'` payload on a little-endian host. -/
theorem C2_send_wire_witness :
    tcpSendWire [60, 101, 112, 112, 47, 62] =
      some (be32 ([60, 101, 112, 112, 47, 62].length + 4) ++ [60, 101, 112, 112, 47, 62]) ∧
    eppSendWire true [60, 101, 112, 112, 47, 62] =
      some (be32 ([60, 101, 112, 112, 47, 62].length + 4) ++ [60, 101, 112, 112, 47, 62]) ∧
    tcpSendWire [60, 101, 112, 112, 47, 62] =
      some [0, 0, 0, 10, 60, 101, 112, 112, 47, 62] :=
  C2_send_wire [60, 101, 112, 112, 47, 62] true (by decide)

/-- Claim **C3 counterexample** — the claim says receive retains the
header-buffer overflow as a carry-over, losing no bytes across the
header/body boundary; the plain (non-TLS) path of `TCPTransport.get`
(`epp.py:156`) discards `rest`.  On the 2-byte-body frame fragmented as a
3-byte then a 4-byte header read, the two body bytes land in the
carry-over, the single `MSG_WAITALL` body read finds the socket empty,
and the plain path returns an empty payload instead of the declared
2-byte body — while `EPPTCPTransport.get` on the same fragmentation
returns the body intact. -/
theorem C3_counterexample :
    tcpGet false [3, 4, 100] (be32 6 ++ [10, 11]) = .ok ([], []) ∧
    eppGetBytes [3, 4, 100] (be32 6 ++ [10, 11]) = .ok ([10, 11], []) := by decide

/-- Claim **C3** (amended) — Header/body carry-over.  For every
fragmentation (any positive per-read availability schedule long enough
to drain the stream) of a well-formed frame, `EPPTCPTransport.get` and
the TLS path of `TCPTransport.get` retain the bytes read past the 4-byte
header as a carry-over seeding the body accumulation: no bytes are lost
across the header/body boundary and the returned payload is exactly the
frame's declared body.  The plain (non-TLS) path of `TCPTransport.get`
instead discards the carry-over and can return a short payload.  (Reads
request at most 4 bytes during header accumulation, so an overfull
header arises from accumulation across reads; the carry-over mechanism
is the same.) -/
theorem C3_carry_over (P sched : List Nat) (hpos : ∀ a ∈ sched, 1 ≤ a)
    (hsched : P.length + 4 ≤ sched.length) (hbound : P.length + 4 < 4294967296) :
    eppGetBytes sched (be32 (P.length + 4) ++ P) = .ok (P, []) ∧
    tcpGet true sched (be32 (P.length + 4) ++ P) = .ok (P, []) ∧
    tcpGet false [3, 4, 100] (be32 6 ++ [10, 11]) = .ok ([], []) := by
  refine ⟨?_, tcpGet_tls_frame P sched hpos hsched hbound, by decide⟩
  have h := eppGetBytes_frame P [] sched hpos (by simpa using hsched) hbound (Or.inr rfl)
  simpa using h

/-- Witness for the amended C3: a 1-byte body whose first header read
returns 3 bytes and whose second returns 2, so the byte past the 4-byte
header spills into the carry-over that becomes the whole body on both
retaining paths. -/
theorem C3_carry_over_witness :
    eppGetBytes [3, 4, 1, 1, 1] (be32 5 ++ [120]) = .ok ([120], []) ∧
    tcpGet true [3, 4, 1, 1, 1] (be32 5 ++ [120]) = .ok ([120], []) ∧
    tcpGet false [3, 4, 100] (be32 6 ++ [10, 11]) = .ok ([], []) :=
  C3_carry_over [120] [3, 4, 1, 1, 1] (by decide) (by decide) (by decide)

/-- Claim **C10** — Body-accumulation invariant of `EPPTCPTransport.get`: each
body read requests exactly the missing `bytes1 - 4 - len(total)` bytes
(see `eppBodyLoop`), so the body phase never consumes bytes belonging to
a subsequent frame `Q`, and the returned payload has exactly
`totalLength - 4` bytes whenever the header carry-over (at most 3 bytes)
cannot exceed the body length. -/
theorem C10_body_invariant (P Q sched : List Nat) (hpos : ∀ a ∈ sched, 1 ≤ a)
    (hsched : P.length + Q.length + 4 ≤ sched.length)
    (hbound : P.length + 4 < 4294967296) (hP : 3 ≤ P.length) :
    eppGetBytes sched (be32 (P.length + 4) ++ (P ++ Q)) = .ok (P, Q) ∧
    P.length = (P.length + 4) - 4 :=
  ⟨eppGetBytes_frame P Q sched hpos hsched hbound (Or.inl hP), by omega⟩

/-- Witness for C10: a 3-byte body followed by 2 bytes of a next frame,
delivered with a carry-over-producing fragmentation; the 2 trailing bytes
are left unread. -/
theorem C10_body_invariant_witness :
    eppGetBytes [4, 3, 3, 1, 1, 1, 1, 1, 1]
      (be32 7 ++ ([10, 11, 12] ++ [99, 98])) = .ok ([10, 11, 12], [99, 98]) ∧
    [10, 11, 12].length = ([10, 11, 12].length + 4) - 4 :=
  C10_body_invariant [10, 11, 12] [99, 98] [4, 3, 3, 1, 1, 1, 1, 1, 1]
    (by decide) (by decide) (by decide) (by decide)

/-- Claim **C9** — `EPPTCPTransport.get` returns the frame body decoded as
UTF-8 text (code points), not raw bytes; a payload that is not valid
UTF-8 raises `UnicodeDecodeError` instead of returning a value. -/
theorem C9_utf8_decode (P sched : List Nat) (hpos : ∀ a ∈ sched, 1 ≤ a)
    (hsched : P.length + 4 ≤ sched.length) (hbound : P.length + 4 < 4294967296) :
    eppGet sched (be32 (P.length + 4) ++ P) =
      match utf8Decode P with
      | some cps => .ok (cps, [])
      | none => .err .decodeError := by
  have h := eppGetBytes_frame P [] sched hpos (by simpa using hsched) hbound (Or.inr rfl)
  rw [List.append_nil] at h
  rw [eppGet, h]

/-- Witness for C9: the single byte `0xFF` is not valid UTF-8 and raises;
the three bytes `E2 82 AC` decode to the single code point U+20AC. -/
theorem C9_utf8_decode_witness :
    eppGet [4, 1, 1, 1, 1] (be32 5 ++ [255]) = .err .decodeError ∧
    eppGet [4, 3, 1, 1, 1, 1, 1] (be32 7 ++ [226, 130, 172]) = .ok ([8364], []) :=
  ⟨(C9_utf8_decode [255] [4, 1, 1, 1, 1] (by decide) (by decide) (by decide)).trans
     (by decide),
   (C9_utf8_decode [226, 130, 172] [4, 3, 1, 1, 1, 1, 1] (by decide) (by decide)
     (by decide)).trans (by decide)⟩

/-- Claim **C4 counterexample** — the claim says a `totalLength` of 0 raises a
`FramingError`; in fact `EPPTCPTransport.get` raises nothing: the body
loop is skipped (`len(total) < bytes1 - 4` is false for negative
`bytes1 - 4`) and the empty carry-over is returned as a payload. -/
theorem C4_counterexample :
    eppGetBytes [4] (be32 0) = .ok ([], []) ∧
    (eppGetBytes [4] (be32 0)).isRaise = false := by decide

/-- Claim **C4** (amended) — no `FramingError` exists in the code.  For a header
declaring `totalLength = t < 4`, `EPPTCPTransport.get` and the TLS path of
`TCPTransport.get` skip the body loop (the comparison is against a
negative remaining length) and return the empty carry-over as the payload;
only the plain path of `TCPTransport.get` fails, with a `ValueError` from
`recv` being handed the negative size `t - 4`. -/
theorem C4_invalid_length (t : Nat) (ht : t < 4) :
    eppGetBytes [4] (be32 t) = .ok ([], []) ∧
    tcpGet true [4] (be32 t) = .ok ([], []) ∧
    tcpGet false [4] (be32 t) = .err .negativeRecvSize := by
  refine ⟨?_, ?_, ?_⟩
  · rw [eppGetBytes, ← List.append_nil (be32 t),
      eppHeaderLoop_greedy 4 (by omega) [] (be32 t) [] rfl]
    dsimp only
    rw [fromBE4_be32 _ (by omega)]
    rw [eppBodyLoop, if_neg (by simp only [List.length_nil]; push_cast; omega)]
  · unfold tcpGet
    rw [← List.append_nil (be32 t), tcpHeaderLoop_greedy 4 (by omega) [] (be32 t) [] rfl 0]
    dsimp only
    rw [fromBE4_be32 _ (by omega)]
    rw [if_pos rfl]
    rw [tcpSslBody, if_neg (by simp only [List.length_nil]; push_cast; omega)]
  · unfold tcpGet
    rw [← List.append_nil (be32 t), tcpHeaderLoop_greedy 4 (by omega) [] (be32 t) [] rfl 0]
    dsimp only
    rw [fromBE4_be32 _ (by omega)]
    rw [if_neg (by decide), if_pos (by omega)]

/-- Witness for the amended C4 at `totalLength = 3`. -/
theorem C4_invalid_length_witness :
    eppGetBytes [4] (be32 3) = .ok ([], []) ∧
    tcpGet true [4] (be32 3) = .ok ([], []) ∧
    tcpGet false [4] (be32 3) = .err .negativeRecvSize :=
  C4_invalid_length 3 (by decide)

/-- Claim **C5 counterexample** — the claim says `receive` raises a
`ReceiveError` reporting received-versus-expected counts when the peer
closes right after the 4-byte header; `EPPTCPTransport.get` instead
prints the counts and terminates the process with exit status 1 — no
exception reaches the caller. -/
theorem C5_counterexample :
    eppGetBytes [4, 100] (be32 10) = .exit 1 ∧
    (eppGetBytes [4, 100] (be32 10)).isRaise = false := by decide

/-- Claim **C5** (amended) — on a peer that closes right after the header, the
TLS path of `TCPTransport.get` raises `TCPTransportError` reporting `0`
received of `totalLength - 4` expected; `EPPTCPTransport.get` prints that
diagnostic and terminates the process with status 1 instead of raising;
and the plain path of `TCPTransport.get` performs a single `MSG_WAITALL`
read and silently returns whatever prefix of the body was available. -/
theorem C5_truncated_body (n : Nat) (sched : List Nat) (h5 : 5 ≤ n)
    (hb : n < 4294967296) :
    tcpGet true (4 :: sched) (be32 n) = .err (.bodyShort 0 (n - 4)) ∧
    eppGetBytes [4, 100] (be32 10) = .exit 1 ∧
    tcpGet false [4, 100] (be32 10 ++ [97]) = .ok ([97], []) := by
  refine ⟨?_, by decide, by decide⟩
  unfold tcpGet
  rw [← List.append_nil (be32 n), tcpHeaderLoop_greedy 4 (by omega) sched (be32 n) [] rfl 0]
  dsimp only
  rw [fromBE4_be32 _ hb]
  rw [if_pos rfl]
  cases sched with
  | nil =>
    rw [tcpSslBody, if_pos (by simp only [List.length_nil]; push_cast; omega)]
    simp
  | cons a sched =>
    rw [tcpSslBody, if_pos (by simp only [List.length_nil]; push_cast; omega)]
    simp

/-- Witness for the amended C5 at `totalLength = 10` with an immediately
exhausted schedule. -/
theorem C5_truncated_body_witness :
    tcpGet true (4 :: []) (be32 10) = .err (.bodyShort 0 (10 - 4)) ∧
    eppGetBytes [4, 100] (be32 10) = .exit 1 ∧
    tcpGet false [4, 100] (be32 10 ++ [97]) = .ok ([97], []) :=
  C5_truncated_body 10 [] (by decide) (by decide)

/-- Claim **C6 counterexample** — the claim says `receive` retries transient
zero-length header reads and raises a `ReceiveError` when the retry bound
is exhausted or the connection closes; `EPPTCPTransport.get` performs no
retry at all: a single transient zero-length read, with the frame still
pending on the stream, terminates the process with status 1. -/
theorem C6_counterexample :
    eppGetBytes [0, 4, 100] (be32 4) = .exit 1 ∧
    (eppGetBytes [0, 4, 100] (be32 4)).isRaise = false := by decide

/-- Claim **C6** (amended) — `TCPTransport.get` retries transient zero-length
header reads with a 0.5 s sleep and raises `TCPTransportError` on the
sixth consecutive zero-length read (bound of 5 retries) or when the
connection is closed, never looping forever or returning a partial
header — five transient zero reads followed by data still succeed;
`EPPTCPTransport.get` performs no retry and terminates the process with
status 1 on the first zero-length header read. -/
theorem C6_header_retry (isssl : Bool) (sched stream P : List Nat)
    (hP : P.length ≤ 4294967291) :
    tcpGet isssl (List.replicate 6 0 ++ sched) stream = .err .headerTimeout ∧
    tcpGet isssl sched [] = .err .headerTimeout ∧
    tcpGet false (List.replicate 5 0 ++ [4294967296, 4294967296])
      (be32 (P.length + 4) ++ P) = .ok (P, []) ∧
    eppGetBytes [0, 4, 100] (be32 4) = .exit 1 := by
  refine ⟨?_, ?_, ?_, by decide⟩
  · unfold tcpGet
    rw [tcpHeaderLoop_six_zeros]
  · unfold tcpGet
    rw [tcpHeaderLoop_closed]
  · unfold tcpGet
    rw [tcpHeaderLoop_zeros 5 [4294967296, 4294967296]
      (be32 (P.length + 4) ++ P) [] 0 (by omega)]
    simp only [Nat.zero_add]
    rw [tcpHeaderLoop_greedy 4294967296 (by omega) [4294967296] (be32 (P.length + 4)) P rfl 5]
    dsimp only
    rw [fromBE4_be32 _ (by omega)]
    rw [if_neg (by decide), if_neg (by omega)]
    have hmin : min (P.length + 4 - 4) 4294967296 = P.length := by omega
    rw [hmin, List.take_length, List.drop_length]

/-- Witness for the amended C6 at a concrete schedule, stream and
payload. -/
theorem C6_header_retry_witness :
    tcpGet true (List.replicate 6 0 ++ [7]) [1] = .err .headerTimeout ∧
    tcpGet true [7] [] = .err .headerTimeout ∧
    tcpGet false (List.replicate 5 0 ++ [4294967296, 4294967296])
      (be32 6 ++ [5, 6]) = .ok ([5, 6], []) ∧
    eppGetBytes [0, 4, 100] (be32 4) = .exit 1 :=
  C6_header_retry true [7] [1] [5, 6] (by decide)

/-- Claim **C7 counterexample** — the claim says the transport operations never
terminate the process; `TCPTransport.__init__` with TLS enabled catches a
failed `connect` with a bare `except:` and calls `sys.exit(1)`. -/
theorem C7_counterexample :
    tcpInit true false false [4, 100] [] = .exit 1 ∧
    (tcpInit true false false [4, 100] []).isRaise = false := by decide

/-- Claim **C7** (amended) — failures in `TCPTransport.get` and in the plain
`TCPTransport` connect path surface to the caller as exceptions
(`TCPTransportError`, `socket.error`), but two operations do terminate
the process themselves with exit status 1: `TCPTransport.__init__` on a
TLS connect failure, and `EPPTCPTransport.get` on a zero-length read. -/
theorem C7_error_surfacing (sched : List Nat) :
    tcpInit true false true [] [] = .exit 1 ∧
    tcpInit false false true [] [] = .err .socketError ∧
    tcpGet true sched [] = .err .headerTimeout ∧
    eppGetBytes [100] [] = .exit 1 := by
  refine ⟨by decide, by decide, ?_, by decide⟩
  unfold tcpGet
  rw [tcpHeaderLoop_closed]

/-- Witness for the amended C7 at a concrete schedule. -/
theorem C7_error_surfacing_witness :
    tcpInit true false true [] [] = .exit 1 ∧
    tcpInit false false true [] [] = .err .socketError ∧
    tcpGet true [9] [] = .err .headerTimeout ∧
    eppGetBytes [100] [] = .exit 1 :=
  C7_error_surfacing [9]

/-- Claim **C8 counterexample** — two consecutive `request` calls (here with
different templates) whose `(time.time(), randint)` draws coincide
generate identical transaction identifiers, so "two consecutive request
calls produce two different identifiers" does not hold of the code
unconditionally. -/
theorem C8_counterexample :
    (eppRequest demoTemplate ['1', '.', '5'] 421).1 =
      (eppRequest ['Z'] ['1', '.', '5'] 421).1 ∧
    demoTemplate ≠ ['Z'] :=
  ⟨rfl, by decide⟩

/-- Claim **C8** (amended) — within one `request` call every occurrence of the
placeholder `'__CLTRID__'` is replaced by the same single generated
identifier, which is recorded in `self._lastcltrid`; two consecutive
`request` calls generate different identifiers exactly when their
`(time.time(), randint)` draws differ. -/
theorem C8_cltrid (t1 t2 : List Char) (r1 r2 : Nat) :
    (eppRequest demoTemplate t1 r1).2 =
      'A' :: (genCltrid t1 r1 ++ ('B' :: genCltrid t1 r1)) ∧
    (eppRequest demoTemplate t1 r1).1 = genCltrid t1 r1 ∧
    (genCltrid t1 r1 = genCltrid t2 r2 ↔ (t1 = t2 ∧ r1 = r2)) :=
  ⟨replaceAll_demoTemplate _, rfl, genCltrid_inj t1 t2 r1 r2⟩

/-- Witness for the amended C8 at concrete draws. -/
theorem C8_cltrid_witness :
    (eppRequest demoTemplate ['1'] 1).2 =
      'A' :: (genCltrid ['1'] 1 ++ ('B' :: genCltrid ['1'] 1)) ∧
    genCltrid ['1'] 1 ≠ genCltrid ['1'] 2 := by
  have h := C8_cltrid ['1'] ['1'] 1 2
  exact ⟨h.1, fun heq => absurd ((h.2.2).mp heq).2 (by decide)⟩

-- sanity checks while developing
example : tcpGet false [8, 8] (be32 10 ++ [60, 101, 112, 112, 47, 62]) =
    .ok ([60, 101, 112, 112, 47, 62], []) := by decide
example : tcpGet true [4, 100] (be32 10) = .err (.bodyShort 0 6) := by decide
example : tcpGet false [4] (be32 2) = .err .negativeRecvSize := by decide
example : tcpInit true false true [] [] = .exit 1 := by decide
example : eppGetBytes [3, 4, 2] (be32 7 ++ [97, 98, 99]) = .ok ([97, 98, 99], []) := by decide
example : eppGetBytes [4, 100] (be32 10) = .exit 1 := by decide
example : eppGet [4, 3] (be32 7 ++ [226, 130, 172]) = .ok ([8364], []) := by decide
example : eppGet [4, 1] (be32 5 ++ [255]) = .err .decodeError := by decide
example : eppSendWire true [60, 101, 112, 112, 47, 62] =
    some ([0, 0, 0, 10] ++ [60, 101, 112, 112, 47, 62]) := by decide
example : eppSendWire false [60, 101, 112, 112, 47, 62] =
    some ([0, 0, 0, 10] ++ [60, 101, 112, 112, 47, 62]) := by decide
example : utf8Decode [237, 160, 128] = none := by decide
example : utf8Decode [192, 175] = none := by decide
example : utf8Decode [244, 143, 191, 191] = some [1114111] := by decide
